import Mathlib

/-
Shallow embedding of the ledger/transaction core of the-wolf-of-ayup
(src/services/TransactionService.ts, src/handlers/UserDAO.ts,
src/handlers/StockDAO.ts).

The relational store is modelled as an explicit state value `DBState`
holding the four tables (users, stocks, holdings snapshots, transaction
log).  Each DAO read/write is a pure function on that state, translated
from the SQL each DAO issues:
  - `SELECT * FROM users WHERE uid = $1` + `rows[0] || null`  ->  first
    row with the given uid (`findUser`);
  - `UPDATE users SET ... WHERE uid = $N`  ->  map over the table
    patching every row whose uid matches (`updateUser`);
  - `INSERT INTO users_stocks ...` / `INSERT INTO transactions ...`  ->
    list cons (append-only tables, order of rows is irrelevant to reads);
  - `SELECT * FROM users_stocks WHERE uid = $1 AND ticker = $2 ORDER BY
    timestamp DESC LIMIT 1`  ->  fold picking the row with the greatest
    timestamp (`getMostRecentStockHolding`).

Each service operation of TransactionService is a pure function
`DBState -> Except LedgerError (record × DBState)`: the TypeScript
methods throw before any write on every validation failure, which the
embedding mirrors by returning `Except.error` without producing a new
state, and on success perform all writes (holding snapshot, user row,
log record) before returning the transaction record.  `Date.now()` is
modelled by the state's logical clock `now`.

`buyStock` reads the user through `UserDAO.getUserPortfolio`, which
returns null exactly when the user row is absent and whose user fields
are all the service consumes, so it is modelled by the same lookup as
`getUser`.
-/

namespace Ayup

/-- A row of the `users` table: uid, cash balance, credit limit and the
amount currently borrowed (all money amounts are integer cents). -/
structure User where
  uid : String
  balance : Int
  credit_limit : Int
  loan_balance : Int
deriving Repr, DecidableEq

/-- A row of the `stocks` table (only the fields the ledger reads). -/
structure Stock where
  ticker : String
  price : Int
deriving Repr, DecidableEq

/-- A row of the `users_stocks` table: one append-only holding
snapshot. -/
structure UserStock where
  uid : String
  ticker : String
  quantity : Int
  timestamp : Nat
deriving Repr, DecidableEq

/-- Transaction kind tag. -/
inductive TxType where
  | buy
  | sell
  | wire
deriving Repr, DecidableEq

/-- A stock transaction record, as built by buyStock/sellStock. -/
structure StockTransaction where
  type : TxType
  uid : String
  ticker : String
  balance_change : Int
  credit_change : Int
  quantity : Int
  price : Int
  total_price : Int
  timestamp : Nat
deriving Repr, DecidableEq

/-- A wire transaction record, as built by wireToUser/wireToEntity. -/
structure WireTransaction where
  type : TxType
  uid : String
  balance_change : Int
  destination : String
  is_destination_user : Bool
  timestamp : Nat
deriving Repr, DecidableEq

/-- One row of the append-only transaction log. -/
inductive TxRecord where
  | stockTx (t : StockTransaction)
  | wireTx (t : WireTransaction)
deriving Repr, DecidableEq

/-- The typed errors thrown by the ledger core (src/models/error). -/
inductive LedgerError where
  | userNotFound (uid : String)
  | stockNotFound (ticker : String)
  | insufficientBalance (uid : String) (balance : Int) (required : Int)
  | insufficientStockQuantity (uid : String) (owned : Int) (requested : Int)
  | emptyUpdate
deriving Repr, DecidableEq

/-- The relational store: the four tables plus a logical clock standing
for `Date.now()`. -/
structure DBState where
  users : List User
  stocks : List Stock
  holdings : List UserStock
  transactions : List TxRecord
  now : Nat
deriving Repr, DecidableEq

/-- First row of the users table with the given uid, or none
(UserDAO.getUser: `SELECT * FROM users WHERE uid = $1`, `rows[0] ||
null`). -/
def findUser : List User → String → Option User
  | [], _ => none
  | u :: rest, uid => if u.uid = uid then some u else findUser rest uid

/-- UserDAO.getUser. -/
def getUser (s : DBState) (uid : String) : Option User :=
  findUser s.users uid

/-- First row of the stocks table with the given ticker
(StockDAO.getStock). -/
def findStock : List Stock → String → Option Stock
  | [], _ => none
  | st :: rest, ticker => if st.ticker = ticker then some st else findStock rest ticker

/-- StockDAO.getStock. -/
def getStock (s : DBState) (ticker : String) : Option Stock :=
  findStock s.stocks ticker

/-- A sparse update of a user row: `Partial<User>` restricted to the
fields the ledger service ever updates (balance, loan_balance). -/
structure UserPatch where
  balance : Option Int
  loan_balance : Option Int
deriving Repr, DecidableEq

/-- Apply a sparse update to one user row: only the supplied fields
change. -/
def applyUserPatch (u : User) (p : UserPatch) : User :=
  { u with
    balance := p.balance.getD u.balance
    loan_balance := p.loan_balance.getD u.loan_balance }

/-- UserDAO.updateUser: `UPDATE users SET ... WHERE uid = $N` patches
every row whose uid matches. -/
def updateUser (s : DBState) (uid : String) (p : UserPatch) : DBState :=
  { s with users := s.users.map (fun v => if v.uid = uid then applyUserPatch v p else v) }

/-- UserDAO.createStockHolding: insert one snapshot row (append-only
table; row order is irrelevant to reads). -/
def createStockHolding (s : DBState) (h : UserStock) : DBState :=
  { s with holdings := h :: s.holdings }

/-- TransactionDAO.createTransaction: insert one log record. -/
def createTransaction (s : DBState) (t : TxRecord) : DBState :=
  { s with transactions := t :: s.transactions }

/-- Pick the later of an accumulator and a row (implements `ORDER BY
timestamp DESC LIMIT 1` as a fold). -/
def moreRecent (a : Option UserStock) (h : UserStock) : Option UserStock :=
  match a with
  | none => some h
  | some b => if h.timestamp > b.timestamp then some h else some b

/-- UserDAO.getMostRecentStockHolding: the (uid, ticker) snapshot with
the greatest timestamp, or none. -/
def getMostRecentStockHolding (s : DBState) (uid ticker : String) : Option UserStock :=
  (s.holdings.filter (fun h => h.uid = uid ∧ h.ticker = ticker)).foldl moreRecent none

/-- Quantity of the most recent (uid, ticker) snapshot, 0 if none
exists. -/
def preQuantity (s : DBState) (uid ticker : String) : Int :=
  match getMostRecentStockHolding s uid ticker with
  | some h => h.quantity
  | none => 0

/-- Sum of all user balances: the total system cash. -/
def totalCash (s : DBState) : Int :=
  (s.users.map (fun v => v.balance)).sum

/-- The persist phase of TransactionService.buyStock (everything after
the validation, with `useCreditAmount` already decided): append the new
holding snapshot, update the user row, append the buy record. -/
def buyPersist (s : DBState) (uid ticker : String) (add : Int) (user : User)
    (stock : Stock) (useCreditAmount : Int) : StockTransaction × DBState :=
  let holding := getMostRecentStockHolding s uid ticker
  let newQuantity := match holding with
    | some h => h.quantity + add
    | none => add
  let newBalance := user.balance + useCreditAmount - stock.price * add
  let newDebt := user.loan_balance + useCreditAmount
  let s1 := createStockHolding s ⟨uid, ticker, newQuantity, s.now⟩
  let s2 := updateUser s1 uid ⟨some newBalance, some newDebt⟩
  let txRecord : StockTransaction :=
    { type := TxType.buy
      uid := uid
      ticker := ticker
      balance_change := -(stock.price * add - useCreditAmount)
      credit_change := useCreditAmount
      quantity := add
      price := stock.price
      total_price := stock.price * add
      timestamp := s.now }
  (txRecord, createTransaction s2 (TxRecord.stockTx txRecord))

/-- TransactionService.buyStock (`cost` is `stock.price * add`). -/
def buyStock (s : DBState) (uid ticker : String) (add : Int) (useCredit : Bool) :
    Except LedgerError (StockTransaction × DBState) :=
  match getUser s uid, getStock s ticker with
  | none, _ => Except.error (LedgerError.userNotFound uid)
  | some _, none => Except.error (LedgerError.stockNotFound ticker)
  | some user, some stock =>
    if user.balance < stock.price * add then
      if useCredit = true ∧
          user.balance + max (user.credit_limit - user.loan_balance) 0 > stock.price * add then
        Except.ok (buyPersist s uid ticker add user stock (stock.price * add - user.balance))
      else
        Except.error (LedgerError.insufficientBalance uid user.balance (stock.price * add))
    else
      Except.ok (buyPersist s uid ticker add user stock 0)

/-- The persist phase of TransactionService.sellStock: append the new
holding snapshot, update the user balance, append the sell record. -/
def sellPersist (s : DBState) (uid ticker : String) (remove : Int) (user : User)
    (stock : Stock) (holding : UserStock) : StockTransaction × DBState :=
  let newQuantity := holding.quantity - remove
  let newBalance := user.balance + stock.price * remove
  let s1 := createStockHolding s ⟨uid, ticker, newQuantity, s.now⟩
  let s2 := updateUser s1 uid ⟨some newBalance, none⟩
  let txRecord : StockTransaction :=
    { type := TxType.sell
      uid := uid
      ticker := ticker
      balance_change := stock.price * remove
      credit_change := 0
      quantity := remove
      price := stock.price
      total_price := stock.price * remove
      timestamp := s.now }
  (txRecord, createTransaction s2 (TxRecord.stockTx txRecord))

/-- TransactionService.sellStock; the error reports
`holding?.quantity || 0` as the owned quantity. -/
def sellStock (s : DBState) (uid ticker : String) (remove : Int) :
    Except LedgerError (StockTransaction × DBState) :=
  match getUser s uid, getStock s ticker with
  | none, _ => Except.error (LedgerError.userNotFound uid)
  | some _, none => Except.error (LedgerError.stockNotFound ticker)
  | some user, some stock =>
    match getMostRecentStockHolding s uid ticker with
    | none => Except.error (LedgerError.insufficientStockQuantity uid 0 remove)
    | some holding =>
      if remove > holding.quantity then
        Except.error (LedgerError.insufficientStockQuantity uid holding.quantity remove)
      else
        Except.ok (sellPersist s uid ticker remove user stock holding)

/-- TransactionService.wireToUser: debit the source, credit the
destination (credit computed from the destination row read before any
write), append one wire record attributed to the source. -/
def wireToUser (s : DBState) (fromUid destUid : String) (amount : Int) :
    Except LedgerError (WireTransaction × DBState) :=
  match getUser s fromUid with
  | none => Except.error (LedgerError.userNotFound fromUid)
  | some fromUser =>
    match getUser s destUid with
    | none => Except.error (LedgerError.userNotFound destUid)
    | some destUser =>
      if fromUser.balance < amount then
        Except.error (LedgerError.insufficientBalance fromUid fromUser.balance amount)
      else
        let s1 := updateUser s fromUid ⟨some (fromUser.balance - amount), none⟩
        let s2 := updateUser s1 destUid ⟨some (destUser.balance + amount), none⟩
        let txRecord : WireTransaction :=
          { type := TxType.wire
            uid := fromUid
            balance_change := -amount
            destination := destUid
            is_destination_user := true
            timestamp := s.now }
        Except.ok (txRecord, createTransaction s2 (TxRecord.wireTx txRecord))

/-- TransactionService.wireToEntity: debit the source only, append one
wire record with is_destination_user = false. -/
def wireToEntity (s : DBState) (fromUid destIdentifier : String) (amount : Int) :
    Except LedgerError (WireTransaction × DBState) :=
  match getUser s fromUid with
  | none => Except.error (LedgerError.userNotFound fromUid)
  | some fromUser =>
    if fromUser.balance < amount then
      Except.error (LedgerError.insufficientBalance fromUid fromUser.balance amount)
    else
      let s1 := updateUser s fromUid ⟨some (fromUser.balance - amount), none⟩
      let txRecord : WireTransaction :=
        { type := TxType.wire
          uid := fromUid
          balance_change := -amount
          destination := destIdentifier
          is_destination_user := false
          timestamp := s.now }
      Except.ok (txRecord, createTransaction s1 (TxRecord.wireTx txRecord))

/-- Separator used when joining `key = $i` clauses. -/
def commaSep : String := ", "

/-- Dollar placeholder prefix used in the generated SQL. -/
def dollarSign : String := "$"

/-- Render the `key = $i` clause list of a sparse UPDATE from the list
of supplied field names. -/
def setClauses (fields : List String) : String :=
  String.intercalate commaSep
    (fields.enum.map (fun p => p.2 ++ " = " ++ dollarSign ++ toString (p.1 + 1)))

/-- UserDAO.updateUser as issued to the store: the method performs no
empty-fields check and directly interpolates the supplied field names
into `UPDATE users SET ... WHERE uid = $N`. -/
def updateUserQuery (fields : List String) : Except LedgerError String :=
  Except.ok ("UPDATE users SET " ++ setClauses fields ++ " WHERE uid = " ++
    dollarSign ++ toString (fields.length + 1))

/-- StockDAO.updateStock as issued to the store: throws the
empty-update error when no fields are supplied, before building
`UPDATE stocks SET ... WHERE ticker = $N`. -/
def updateStockQuery (fields : List String) : Except LedgerError String :=
  if fields.length = 0 then
    Except.error LedgerError.emptyUpdate
  else
    Except.ok ("UPDATE stocks SET " ++ setClauses fields ++ " WHERE ticker = " ++
      dollarSign ++ toString (fields.length + 1))

end Ayup

namespace Ayup

/-- Sparse updates never change the uid of a row. -/
@[simp] theorem applyUserPatch_uid (u : User) (p : UserPatch) :
    (applyUserPatch u p).uid = u.uid := rfl

/-- Sparse updates never change the credit limit of a row (the ledger
never patches that field). -/
@[simp] theorem applyUserPatch_credit_limit (u : User) (p : UserPatch) :
    (applyUserPatch u p).credit_limit = u.credit_limit := rfl

/-- Inserting a holding snapshot leaves the users table unchanged. -/
@[simp] theorem getUser_createStockHolding (s : DBState) (h : UserStock) (uid : String) :
    getUser (createStockHolding s h) uid = getUser s uid := rfl

/-- Appending a log record leaves the users table unchanged. -/
@[simp] theorem getUser_createTransaction (s : DBState) (t : TxRecord) (uid : String) :
    getUser (createTransaction s t) uid = getUser s uid := rfl

/-- Looking up the patched uid after an UPDATE returns the patched
row. -/
theorem findUser_map_patch_self (l : List User) (uid : String) (p : UserPatch) :
    findUser (l.map (fun v => if v.uid = uid then applyUserPatch v p else v)) uid =
      (findUser l uid).map (fun v => applyUserPatch v p) := by
  induction l with
  | nil => rfl
  | cons a t ih =>
    by_cases h : a.uid = uid
    · simp [findUser, h]
    · simp [findUser, h, ih]

/-- Looking up a different uid after an UPDATE is unaffected. -/
theorem findUser_map_patch_ne (l : List User) (uid uid' : String) (p : UserPatch)
    (hne : uid' ≠ uid) :
    findUser (l.map (fun v => if v.uid = uid then applyUserPatch v p else v)) uid' =
      findUser l uid' := by
  induction l with
  | nil => rfl
  | cons a t ih =>
    by_cases h : a.uid = uid
    · have h2 : uid ≠ uid' := fun e => hne e.symm
      simp [findUser, h, h2, ih]
    · simp [findUser, h, ih]

/-- getUser after updateUser on the same uid. -/
theorem getUser_updateUser_self (s : DBState) (uid : String) (p : UserPatch) :
    getUser (updateUser s uid p) uid = (getUser s uid).map (fun v => applyUserPatch v p) :=
  findUser_map_patch_self s.users uid p

/-- getUser after updateUser on a different uid. -/
theorem getUser_updateUser_ne (s : DBState) (uid uid' : String) (p : UserPatch)
    (hne : uid' ≠ uid) :
    getUser (updateUser s uid p) uid' = getUser s uid' :=
  findUser_map_patch_ne s.users uid uid' p hne

/-- A balance-only UPDATE preserves the loan_balance and credit_limit
seen through any lookup. -/
theorem getUser_balancePatch_fields (s : DBState) (uid uid0 : String) (b : Int) (u' : User)
    (h : getUser (updateUser s uid ⟨some b, none⟩) uid0 = some u') :
    ∃ v, getUser s uid0 = some v ∧ u'.loan_balance = v.loan_balance ∧
      u'.credit_limit = v.credit_limit := by
  by_cases he : uid0 = uid
  · subst he
    rw [getUser_updateUser_self] at h
    cases hv : getUser s uid0 with
    | none => rw [hv] at h; cases h
    | some v =>
      rw [hv] at h
      refine ⟨v, rfl, ?_, ?_⟩
      · have : u' = applyUserPatch v ⟨some b, none⟩ := (Option.some.inj h).symm
        rw [this]
        rfl
      · have : u' = applyUserPatch v ⟨some b, none⟩ := (Option.some.inj h).symm
        rw [this]
        rfl
  · rw [getUser_updateUser_ne s uid uid0 _ he] at h
    exact ⟨u', h, rfl, rfl⟩

/-- Number of rows of the users table carrying a given uid (uid is the
table's key, so a well-formed store has exactly one for each existing
user). -/
def countUid : List User → String → Nat
  | [], _ => 0
  | u :: rest, uid => (if u.uid = uid then 1 else 0) + countUid rest uid

/-- An UPDATE matching no row leaves the balance column sum
unchanged. -/
theorem sum_balances_patch_absent (l : List User) (uid : String) (p : UserPatch)
    (hcount : countUid l uid = 0) :
    ((l.map (fun v => if v.uid = uid then applyUserPatch v p else v)).map
        (fun v => v.balance)).sum =
      (l.map (fun v => v.balance)).sum := by
  induction l with
  | nil => rfl
  | cons a t ih =>
    rw [countUid] at hcount
    by_cases h : a.uid = uid
    · rw [if_pos h] at hcount
      omega
    · rw [if_neg h] at hcount
      simp only [List.map_cons, if_neg h, List.sum_cons]
      rw [ih (by omega)]

/-- An UPDATE matching exactly one row changes the balance column sum
by replacing that row's balance with the patched value. -/
theorem sum_balances_patch_single (l : List User) (uid : String) (p : UserPatch) (u : User)
    (hfind : findUser l uid = some u)
    (hcount : countUid l uid = 1) :
    ((l.map (fun v => if v.uid = uid then applyUserPatch v p else v)).map
        (fun v => v.balance)).sum =
      (l.map (fun v => v.balance)).sum - u.balance + p.balance.getD u.balance := by
  induction l with
  | nil => cases hfind
  | cons a t ih =>
    rw [countUid] at hcount
    by_cases h : a.uid = uid
    · have ha : a = u := by
        rw [findUser, if_pos h] at hfind
        exact Option.some.inj hfind
      subst ha
      rw [if_pos h] at hcount
      simp only [List.map_cons, if_pos h, List.sum_cons]
      rw [sum_balances_patch_absent t uid p (by omega)]
      have hb : (applyUserPatch a p).balance = p.balance.getD a.balance := rfl
      rw [hb]
      omega
    · have hfind' : findUser t uid = some u := by
        rw [findUser, if_neg h] at hfind
        exact hfind
      rw [if_neg h] at hcount
      simp only [List.map_cons, if_neg h, List.sum_cons]
      rw [ih hfind' (by omega)]
      omega

end Ayup

namespace Ayup

/-- Inversion of a successful buyStock run: the user and stock existed,
the credit amount was decided by the validation rules, and the returned
record and state are exactly what the persist phase builds. -/
theorem buyStock_ok_inv {s : DBState} {uid ticker : String} {add : Int} {useCredit : Bool}
    {tx : StockTransaction} {s' : DBState}
    (hok : buyStock s uid ticker add useCredit = Except.ok (tx, s')) :
    ∃ u st, getUser s uid = some u ∧ getStock s ticker = some st ∧
      ∃ ca : Int,
        ((¬ u.balance < st.price * add ∧ ca = 0) ∨
          (u.balance < st.price * add ∧ useCredit = true ∧
            u.balance + max (u.credit_limit - u.loan_balance) 0 > st.price * add ∧
            ca = st.price * add - u.balance)) ∧
        (tx, s') = buyPersist s uid ticker add u st ca := by
  unfold buyStock at hok
  cases hu : getUser s uid with
  | none => rw [hu] at hok; cases hok
  | some u =>
    cases hst : getStock s ticker with
    | none => rw [hu, hst] at hok; cases hok
    | some st =>
      rw [hu, hst] at hok
      dsimp only at hok
      by_cases hb : u.balance < st.price * add
      · rw [if_pos hb] at hok
        by_cases hc : useCredit = true ∧
            u.balance + max (u.credit_limit - u.loan_balance) 0 > st.price * add
        · rw [if_pos hc] at hok
          refine ⟨u, st, rfl, rfl, st.price * add - u.balance,
            Or.inr ⟨hb, hc.1, hc.2, rfl⟩, ?_⟩
          exact (Except.ok.inj hok).symm
        · rw [if_neg hc] at hok; cases hok
      · rw [if_neg hb] at hok
        refine ⟨u, st, rfl, rfl, 0, Or.inl ⟨hb, rfl⟩, ?_⟩
        exact (Except.ok.inj hok).symm

/-- Inversion of a successful sellStock run. -/
theorem sellStock_ok_inv {s : DBState} {uid ticker : String} {remove : Int}
    {tx : StockTransaction} {s' : DBState}
    (hok : sellStock s uid ticker remove = Except.ok (tx, s')) :
    ∃ u st h, getUser s uid = some u ∧ getStock s ticker = some st ∧
      getMostRecentStockHolding s uid ticker = some h ∧
      ¬ remove > h.quantity ∧
      (tx, s') = sellPersist s uid ticker remove u st h := by
  unfold sellStock at hok
  cases hu : getUser s uid with
  | none => rw [hu] at hok; cases hok
  | some u =>
    cases hst : getStock s ticker with
    | none => rw [hu, hst] at hok; cases hok
    | some st =>
      rw [hu, hst] at hok
      dsimp only at hok
      cases hh : getMostRecentStockHolding s uid ticker with
      | none => rw [hh] at hok; cases hok
      | some h =>
        rw [hh] at hok
        dsimp only at hok
        by_cases hq : remove > h.quantity
        · rw [if_pos hq] at hok; cases hok
        · rw [if_neg hq] at hok
          exact ⟨u, st, h, rfl, rfl, rfl, hq, (Except.ok.inj hok).symm⟩

/-- Inversion of a successful wireToUser run: both users existed, the
source had the funds, and the final state is the debit then the credit
(computed from the pre-state rows) plus the one wire record. -/
theorem wireToUser_ok_inv {s : DBState} {fromUid destUid : String} {amount : Int}
    {tx : WireTransaction} {s' : DBState}
    (hok : wireToUser s fromUid destUid amount = Except.ok (tx, s')) :
    ∃ fu du, getUser s fromUid = some fu ∧ getUser s destUid = some du ∧
      ¬ fu.balance < amount ∧
      tx = { type := TxType.wire, uid := fromUid, balance_change := -amount,
             destination := destUid, is_destination_user := true, timestamp := s.now } ∧
      s' = createTransaction
             (updateUser (updateUser s fromUid ⟨some (fu.balance - amount), none⟩)
               destUid ⟨some (du.balance + amount), none⟩)
             (TxRecord.wireTx tx) := by
  unfold wireToUser at hok
  cases hf : getUser s fromUid with
  | none => rw [hf] at hok; cases hok
  | some fu =>
    cases hd : getUser s destUid with
    | none => rw [hf, hd] at hok; cases hok
    | some du =>
      rw [hf, hd] at hok
      dsimp only at hok
      by_cases hb : fu.balance < amount
      · rw [if_pos hb] at hok; cases hok
      · rw [if_neg hb] at hok
        have h2 := Except.ok.inj hok
        obtain ⟨htx, hs⟩ := Prod.mk.inj h2
        refine ⟨fu, du, rfl, rfl, hb, htx.symm, ?_⟩
        rw [← htx]
        exact hs.symm

/-- Inversion of a successful wireToEntity run: the source existed and
had the funds, and the final state is the single debit plus the one
wire record. -/
theorem wireToEntity_ok_inv {s : DBState} {fromUid dest : String} {amount : Int}
    {tx : WireTransaction} {s' : DBState}
    (hok : wireToEntity s fromUid dest amount = Except.ok (tx, s')) :
    ∃ fu, getUser s fromUid = some fu ∧ ¬ fu.balance < amount ∧
      tx = { type := TxType.wire, uid := fromUid, balance_change := -amount,
             destination := dest, is_destination_user := false, timestamp := s.now } ∧
      s' = createTransaction (updateUser s fromUid ⟨some (fu.balance - amount), none⟩)
             (TxRecord.wireTx tx) := by
  unfold wireToEntity at hok
  cases hf : getUser s fromUid with
  | none => rw [hf] at hok; cases hok
  | some fu =>
    rw [hf] at hok
    dsimp only at hok
    by_cases hb : fu.balance < amount
    · rw [if_pos hb] at hok; cases hok
    · rw [if_neg hb] at hok
      have h2 := Except.ok.inj hok
      obtain ⟨htx, hs⟩ := Prod.mk.inj h2
      refine ⟨fu, rfl, hb, htx.symm, ?_⟩
      rw [← htx]
      exact hs.symm

end Ayup

namespace Ayup

/-- The record returned by the buy persist phase. -/
theorem buyPersist_fst (s : DBState) (uid ticker : String) (add : Int) (u : User)
    (st : Stock) (ca : Int) :
    (buyPersist s uid ticker add u st ca).1 =
      { type := TxType.buy
        uid := uid
        ticker := ticker
        balance_change := -(st.price * add - ca)
        credit_change := ca
        quantity := add
        price := st.price
        total_price := st.price * add
        timestamp := s.now } := rfl

/-- User lookups after the buy persist phase: the bought-for uid is
patched with the new balance and debt, every other uid reads as
before. -/
theorem getUser_buyPersist (s : DBState) (uid ticker : String) (add : Int) (u : User)
    (st : Stock) (ca : Int) (uid0 : String) :
    getUser (buyPersist s uid ticker add u st ca).2 uid0 =
      if uid0 = uid then
        (getUser s uid0).map (fun v => applyUserPatch v
          ⟨some (u.balance + ca - st.price * add), some (u.loan_balance + ca)⟩)
      else getUser s uid0 := by
  by_cases h : uid0 = uid
  · subst h
    rw [if_pos rfl]
    exact findUser_map_patch_self s.users uid0
      ⟨some (u.balance + ca - st.price * add), some (u.loan_balance + ca)⟩
  · rw [if_neg h]
    exact findUser_map_patch_ne s.users uid uid0
      ⟨some (u.balance + ca - st.price * add), some (u.loan_balance + ca)⟩ h

/-- The holdings table after the buy persist phase: one new snapshot
whose quantity is the previous latest quantity (0 if none) plus the
bought quantity. -/
theorem buyPersist_holdings (s : DBState) (uid ticker : String) (add : Int) (u : User)
    (st : Stock) (ca : Int) :
    (buyPersist s uid ticker add u st ca).2.holdings =
      { uid := uid, ticker := ticker, quantity := preQuantity s uid ticker + add,
        timestamp := s.now } :: s.holdings := by
  unfold buyPersist preQuantity
  cases h : getMostRecentStockHolding s uid ticker with
  | none => simp [h, createStockHolding, createTransaction, updateUser]
  | some hld => simp [h, createStockHolding, createTransaction, updateUser]

/-- The transaction log after the buy persist phase: exactly the
returned record is appended. -/
theorem buyPersist_transactions (s : DBState) (uid ticker : String) (add : Int) (u : User)
    (st : Stock) (ca : Int) :
    (buyPersist s uid ticker add u st ca).2.transactions =
      TxRecord.stockTx (buyPersist s uid ticker add u st ca).1 :: s.transactions := rfl

/-- The record returned by the sell persist phase. -/
theorem sellPersist_fst (s : DBState) (uid ticker : String) (remove : Int) (u : User)
    (st : Stock) (h : UserStock) :
    (sellPersist s uid ticker remove u st h).1 =
      { type := TxType.sell
        uid := uid
        ticker := ticker
        balance_change := st.price * remove
        credit_change := 0
        quantity := remove
        price := st.price
        total_price := st.price * remove
        timestamp := s.now } := rfl

/-- User lookups after the sell persist phase. -/
theorem getUser_sellPersist (s : DBState) (uid ticker : String) (remove : Int) (u : User)
    (st : Stock) (h : UserStock) (uid0 : String) :
    getUser (sellPersist s uid ticker remove u st h).2 uid0 =
      if uid0 = uid then
        (getUser s uid0).map (fun v => applyUserPatch v
          ⟨some (u.balance + st.price * remove), none⟩)
      else getUser s uid0 := by
  by_cases he : uid0 = uid
  · subst he
    rw [if_pos rfl]
    exact findUser_map_patch_self s.users uid0 ⟨some (u.balance + st.price * remove), none⟩
  · rw [if_neg he]
    exact findUser_map_patch_ne s.users uid uid0
      ⟨some (u.balance + st.price * remove), none⟩ he

/-- The holdings table after the sell persist phase. -/
theorem sellPersist_holdings (s : DBState) (uid ticker : String) (remove : Int) (u : User)
    (st : Stock) (h : UserStock) :
    (sellPersist s uid ticker remove u st h).2.holdings =
      { uid := uid, ticker := ticker, quantity := h.quantity - remove,
        timestamp := s.now } :: s.holdings := rfl

/-- The transaction log after the sell persist phase. -/
theorem sellPersist_transactions (s : DBState) (uid ticker : String) (remove : Int)
    (u : User) (st : Stock) (h : UserStock) :
    (sellPersist s uid ticker remove u st h).2.transactions =
      TxRecord.stockTx (sellPersist s uid ticker remove u st h).1 :: s.transactions := rfl

/-- Uid of the test user of the worked examples. -/
def uidA : String := "A"

/-- Uid of the second test user. -/
def uidB : String := "B"

/-- Ticker of the test stock. -/
def tickXYZ : String := "XYZ"

/-- External wire destination used by the worked examples. -/
def bankDest : String := "BANK"

/-- Test user A: balance 100, credit limit 500, no debt (the spec's
credit example). -/
def userA : User := { uid := uidA, balance := 100, credit_limit := 500, loan_balance := 0 }

/-- Test user B: balance 20, no credit. -/
def userB : User := { uid := uidB, balance := 20, credit_limit := 0, loan_balance := 0 }

/-- Test stock XYZ at price 100. -/
def stockXYZ : Stock := { ticker := tickXYZ, price := 100 }

/-- One-user test store. -/
def s0 : DBState :=
  { users := [userA], stocks := [stockXYZ], holdings := [], transactions := [], now := 1 }

/-- Two-user test store. -/
def s2u : DBState :=
  { users := [userA, userB], stocks := [stockXYZ], holdings := [], transactions := [],
    now := 7 }

/-- Test store where A additionally holds 5 XYZ (the spec's sell
example). -/
def s5 : DBState :=
  { users := [userA], stocks := [stockXYZ],
    holdings := [{ uid := uidA, ticker := tickXYZ, quantity := 5, timestamp := 0 }],
    transactions := [], now := 2 }

end Ayup

namespace Ayup

/-- First component of a pair equation. -/
theorem pair_eq_fst {α β : Type} {a : α} {b : β} {p : α × β} (h : (a, b) = p) : a = p.1 :=
  congrArg Prod.fst h

/-- Second component of a pair equation. -/
theorem pair_eq_snd {α β : Type} {a : α} {b : β} {p : α × β} (h : (a, b) = p) : b = p.2 :=
  congrArg Prod.snd h

/-- C1: for every successful buy where balance < cost, useCredit is
true and balance + availableCredit > cost, the operation draws exactly
creditAmount = cost − balance, the new balance is
balance + creditAmount − cost (that is 0), the new loan_balance is
loan_balance + creditAmount, and the returned record has
balance_change = −(cost − creditAmount), credit_change = creditAmount
and total_price = cost. -/
theorem buy_credit_shortfall_exact (s : DBState) (uid ticker : String) (add : Int)
    (u : User) (st : Stock) (tx : StockTransaction) (s' : DBState) (u' : User)
    (hu : getUser s uid = some u) (hst : getStock s ticker = some st)
    (hlt : u.balance < st.price * add)
    (hcr : u.balance + max (u.credit_limit - u.loan_balance) 0 > st.price * add)
    (hok : buyStock s uid ticker add true = Except.ok (tx, s'))
    (hu' : getUser s' uid = some u') :
    tx.credit_change = st.price * add - u.balance ∧
    u'.balance = u.balance + tx.credit_change - st.price * add ∧
    u'.balance = 0 ∧
    u'.loan_balance = u.loan_balance + tx.credit_change ∧
    tx.balance_change = -(st.price * add - tx.credit_change) ∧
    tx.total_price = st.price * add := by
  obtain ⟨u0, st0, hu0, hst0, ca, hca, heq⟩ := buyStock_ok_inv hok
  rw [hu] at hu0
  rw [hst] at hst0
  cases Option.some.inj hu0
  cases Option.some.inj hst0
  have htx := pair_eq_fst heq
  have hs' := pair_eq_snd heq
  rcases hca with ⟨hnl, _⟩ | ⟨_, _, _, hcaeq⟩
  · exact absurd hlt hnl
  · subst hcaeq
    rw [hs', getUser_buyPersist, if_pos rfl, hu, Option.map_some'] at hu'
    have hup := Option.some.inj hu'
    refine ⟨?_, ?_, ?_, ?_, ?_, ?_⟩
    · rw [htx, buyPersist_fst]
    · rw [← hup, htx, buyPersist_fst]
      rfl
    · rw [← hup]
      show u.balance + (st.price * add - u.balance) - st.price * add = 0
      omega
    · rw [← hup, htx, buyPersist_fst]
      rfl
    · rw [htx, buyPersist_fst]
    · rw [htx, buyPersist_fst]

/-- C2: for every successful buy or sell, the trading user's new
balance is the old balance plus the record's balance_change; for buy
the new loan_balance is the old one plus the record's credit_change,
for sell the record's credit_change is 0 and loan_balance is
unchanged. -/
theorem trade_balance_change_consistent (s : DBState) (uid ticker : String) (q : Int)
    (useCredit : Bool) (u : User) (hu : getUser s uid = some u) :
    (∀ tx s' u', buyStock s uid ticker q useCredit = Except.ok (tx, s') →
        getUser s' uid = some u' →
        u'.balance = u.balance + tx.balance_change ∧
        u'.loan_balance = u.loan_balance + tx.credit_change) ∧
    (∀ tx s' u', sellStock s uid ticker q = Except.ok (tx, s') →
        getUser s' uid = some u' →
        u'.balance = u.balance + tx.balance_change ∧ tx.credit_change = 0 ∧
        u'.loan_balance = u.loan_balance) := by
  constructor
  · intro tx s' u' hok hu'
    obtain ⟨u0, st0, hu0, hst0, ca, hca, heq⟩ := buyStock_ok_inv hok
    rw [hu] at hu0
    cases Option.some.inj hu0
    have htx := pair_eq_fst heq
    have hs' := pair_eq_snd heq
    rw [hs', getUser_buyPersist, if_pos rfl, hu, Option.map_some'] at hu'
    have hup := Option.some.inj hu'
    constructor
    · rw [← hup, htx, buyPersist_fst]
      show u.balance + ca - st0.price * q = u.balance + -(st0.price * q - ca)
      omega
    · rw [← hup, htx, buyPersist_fst]
      rfl
  · intro tx s' u' hok hu'
    obtain ⟨u0, st0, h0, hu0, hst0, hh0, hq0, heq⟩ := sellStock_ok_inv hok
    rw [hu] at hu0
    cases Option.some.inj hu0
    have htx := pair_eq_fst heq
    have hs' := pair_eq_snd heq
    rw [hs', getUser_sellPersist, if_pos rfl, hu, Option.map_some'] at hu'
    have hup := Option.some.inj hu'
    refine ⟨?_, ?_, ?_⟩
    · rw [← hup, htx, sellPersist_fst]
      rfl
    · rw [htx, sellPersist_fst]
    · rw [← hup]
      rfl

/-- C3: starting from a user satisfying loan_balance ≤ credit_limit,
any single successful ledger operation preserves that invariant for
that user, and a buy that actually draws credit draws strictly less
than the available credit max(credit_limit − loan_balance, 0). -/
theorem loan_within_credit_limit (s : DBState) (uid0 : String) (u : User)
    (hu : getUser s uid0 = some u) (hinv : u.loan_balance ≤ u.credit_limit) :
    (∀ uid ticker q c tx s' u', buyStock s uid ticker q c = Except.ok (tx, s') →
        getUser s' uid0 = some u' → u'.loan_balance ≤ u'.credit_limit) ∧
    (∀ uid ticker q tx s' u', sellStock s uid ticker q = Except.ok (tx, s') →
        getUser s' uid0 = some u' → u'.loan_balance ≤ u'.credit_limit) ∧
    (∀ f d a tx s' u', wireToUser s f d a = Except.ok (tx, s') →
        getUser s' uid0 = some u' → u'.loan_balance ≤ u'.credit_limit) ∧
    (∀ f d a tx s' u', wireToEntity s f d a = Except.ok (tx, s') →
        getUser s' uid0 = some u' → u'.loan_balance ≤ u'.credit_limit) ∧
    (∀ uid ticker q tx s' v, buyStock s uid ticker q true = Except.ok (tx, s') →
        getUser s uid = some v → tx.credit_change ≠ 0 →
        tx.credit_change < max (v.credit_limit - v.loan_balance) 0) := by
  refine ⟨?_, ?_, ?_, ?_, ?_⟩
  · intro uid ticker q c tx s' u' hok hu'
    obtain ⟨u0, st0, hu0, hst0, ca, hca, heq⟩ := buyStock_ok_inv hok
    have hs' := pair_eq_snd heq
    rw [hs', getUser_buyPersist] at hu'
    by_cases he : uid0 = uid
    · subst he
      rw [if_pos rfl] at hu'
      rw [hu] at hu0
      cases Option.some.inj hu0
      rw [hu, Option.map_some'] at hu'
      have hup := Option.some.inj hu'
      rw [← hup]
      show u.loan_balance + ca ≤ u.credit_limit
      rcases hca with ⟨_, hca0⟩ | ⟨hblt, _, hgt, hcaeq⟩
      · omega
      · subst hcaeq
        omega
    · rw [if_neg he, hu] at hu'
      cases Option.some.inj hu'
      exact hinv
  · intro uid ticker q tx s' u' hok hu'
    obtain ⟨u0, st0, h0, hu0, hst0, hh0, hq0, heq⟩ := sellStock_ok_inv hok
    have hs' := pair_eq_snd heq
    rw [hs', getUser_sellPersist] at hu'
    by_cases he : uid0 = uid
    · subst he
      rw [if_pos rfl] at hu'
      rw [hu] at hu0
      cases Option.some.inj hu0
      rw [hu, Option.map_some'] at hu'
      have hup := Option.some.inj hu'
      rw [← hup]
      exact hinv
    · rw [if_neg he, hu] at hu'
      cases Option.some.inj hu'
      exact hinv
  · intro f d a tx s' u' hok hu'
    obtain ⟨fu, du, hf, hd, hb, htx, hs'⟩ := wireToUser_ok_inv hok
    rw [hs', getUser_createTransaction] at hu'
    obtain ⟨v1, hv1, hl1, hc1⟩ := getUser_balancePatch_fields _ d uid0 _ u' hu'
    obtain ⟨v2, hv2, hl2, hc2⟩ := getUser_balancePatch_fields _ f uid0 _ v1 hv1
    rw [hu] at hv2
    cases Option.some.inj hv2
    rw [hl1, hl2, hc1, hc2]
    exact hinv
  · intro f d a tx s' u' hok hu'
    obtain ⟨fu, hf, hb, htx, hs'⟩ := wireToEntity_ok_inv hok
    rw [hs', getUser_createTransaction] at hu'
    obtain ⟨v1, hv1, hl1, hc1⟩ := getUser_balancePatch_fields _ f uid0 _ u' hu'
    rw [hu] at hv1
    cases Option.some.inj hv1
    rw [hl1, hc1]
    exact hinv
  · intro uid ticker q tx s' v hok hv hne
    obtain ⟨u0, st0, hu0, hst0, ca, hca, heq⟩ := buyStock_ok_inv hok
    rw [hv] at hu0
    cases Option.some.inj hu0
    have htx := pair_eq_fst heq
    rcases hca with ⟨_, hca0⟩ | ⟨hblt, _, hgt, hcaeq⟩
    · exfalso
      apply hne
      rw [htx, buyPersist_fst, hca0]
    · subst hcaeq
      rw [htx, buyPersist_fst]
      show st0.price * q - v.balance < max (v.credit_limit - v.loan_balance) 0
      omega

end Ayup

namespace Ayup

/-- C4 counterexample: wireToUser(A, A, 50) on a store where A has
balance 100 succeeds with an existing destination, yet afterwards A's
balance is 150: the credit written last overwrites the debit, so the
source change (+50) plus the destination change (+50) is 100, not 0. -/
theorem wireToUser_self_not_conserving :
    getUser s0 uidA = some userA ∧ userA.balance = 100 ∧
    (wireToUser s0 uidA uidA 50).toOption.map
        (fun p => (getUser p.2 uidA).map (fun v => v.balance)) = some (some 150) ∧
    ((150 - 100 : Int) + (150 - 100) ≠ 0) := by
  refine ⟨rfl, rfl, rfl, by decide⟩

/-- C4 (amended): wireToUser between two DIFFERENT existing users is
balance-conserving: the source loses exactly amount, the destination
gains exactly amount, and the two balance changes sum to 0. -/
theorem wireToUser_distinct_conserving (s : DBState) (fromUid destUid : String)
    (amount : Int) (fu du : User) (tx : WireTransaction) (s' : DBState) (fu' du' : User)
    (hne : fromUid ≠ destUid)
    (hf : getUser s fromUid = some fu) (hd : getUser s destUid = some du)
    (hok : wireToUser s fromUid destUid amount = Except.ok (tx, s'))
    (hf' : getUser s' fromUid = some fu') (hd' : getUser s' destUid = some du') :
    fu'.balance = fu.balance - amount ∧ du'.balance = du.balance + amount ∧
    (fu'.balance - fu.balance) + (du'.balance - du.balance) = 0 := by
  obtain ⟨fu0, du0, hf0, hd0, hb, htx, hs'⟩ := wireToUser_ok_inv hok
  rw [hf] at hf0
  cases Option.some.inj hf0
  rw [hd] at hd0
  cases Option.some.inj hd0
  rw [hs', getUser_createTransaction] at hf' hd'
  rw [getUser_updateUser_ne _ destUid fromUid _ hne] at hf'
  rw [getUser_updateUser_self, hf, Option.map_some'] at hf'
  have hfu' := Option.some.inj hf'
  rw [getUser_updateUser_self] at hd'
  rw [getUser_updateUser_ne _ fromUid destUid _ (fun e => hne e.symm), hd,
    Option.map_some'] at hd'
  have hdu' := Option.some.inj hd'
  refine ⟨?_, ?_, ?_⟩
  · rw [← hfu']
    rfl
  · rw [← hdu']
    rfl
  · rw [← hfu', ← hdu']
    show (fu.balance - amount - fu.balance) + (du.balance + amount - du.balance) = 0
    omega

/-- C5: selling with no holding, or more than the latest holding's
quantity, fails with the insufficient-stock-quantity error reporting
the owned quantity (0 when no holding exists), and performs no writes
(the service throws before the persist phase begins). -/
theorem sell_insufficient_quantity_fails (s : DBState) (uid ticker : String) (remove : Int)
    (u : User) (st : Stock)
    (hu : getUser s uid = some u) (hst : getStock s ticker = some st)
    (hins : getMostRecentStockHolding s uid ticker = none ∨
      preQuantity s uid ticker < remove) :
    sellStock s uid ticker remove =
      Except.error
        (LedgerError.insufficientStockQuantity uid (preQuantity s uid ticker) remove) := by
  unfold sellStock
  rw [hu, hst]
  dsimp only
  cases hh : getMostRecentStockHolding s uid ticker with
  | none =>
    have hq0 : preQuantity s uid ticker = 0 := by
      unfold preQuantity
      rw [hh]
    rw [hq0]
  | some h =>
    have hqe : preQuantity s uid ticker = h.quantity := by
      unfold preQuantity
      rw [hh]
    rcases hins with hnone | hlt
    · rw [hh] at hnone
      cases hnone
    · rw [hqe] at hlt
      dsimp only
      rw [if_pos (by omega), hqe]

/-- C6: buying with useCredit = false and balance < cost fails with the
insufficient-balance error carrying (uid, balance, cost), and performs
no writes (the service throws before the persist phase begins). -/
theorem buy_insufficient_balance_fails (s : DBState) (uid ticker : String) (add : Int)
    (u : User) (st : Stock)
    (hu : getUser s uid = some u) (hst : getStock s ticker = some st)
    (hlt : u.balance < st.price * add) :
    buyStock s uid ticker add false =
      Except.error (LedgerError.insufficientBalance uid u.balance (st.price * add)) := by
  unfold buyStock
  rw [hu, hst]
  dsimp only
  rw [if_pos hlt, if_neg (by simp)]

/-- C7 counterexample: buyStock accepts a negative quantity (the
validation only checks balance against cost, and a negative quantity
makes the cost negative), and records a holding snapshot with the
negative quantity −1. -/
theorem buy_negative_quantity_holding :
    (buyStock s0 uidA tickXYZ (-1) false).toOption.map
        (fun p => p.2.holdings.map (fun h => h.quantity)) = some [-1] ∧
    ((-1 : Int) < 0) := ⟨rfl, by decide⟩

/-- C7 (amended): every successful trade writes exactly one new
snapshot whose quantity is the pre-trade quantity (0 if none) plus the
bought quantity or minus the sold quantity; the sell snapshot is never
negative when the pre-trade quantity is the validated holding, and the
buy snapshot is nonnegative provided the bought quantity and the
pre-trade quantity are nonnegative (a negative bought quantity can make
it negative, as the counterexample shows). -/
theorem trade_holding_quantity (s : DBState) (uid ticker : String) (q : Int)
    (useCredit : Bool) :
    (∀ tx s', buyStock s uid ticker q useCredit = Except.ok (tx, s') →
        s'.holdings = { uid := uid, ticker := ticker,
                        quantity := preQuantity s uid ticker + q,
                        timestamp := s.now } :: s.holdings ∧
        (0 ≤ q → 0 ≤ preQuantity s uid ticker → 0 ≤ preQuantity s uid ticker + q)) ∧
    (∀ tx s', sellStock s uid ticker q = Except.ok (tx, s') →
        s'.holdings = { uid := uid, ticker := ticker,
                        quantity := preQuantity s uid ticker - q,
                        timestamp := s.now } :: s.holdings ∧
        0 ≤ preQuantity s uid ticker - q) := by
  constructor
  · intro tx s' hok
    obtain ⟨u0, st0, hu0, hst0, ca, hca, heq⟩ := buyStock_ok_inv hok
    have hs' := pair_eq_snd heq
    constructor
    · rw [hs', buyPersist_holdings]
    · intro h1 h2
      omega
  · intro tx s' hok
    obtain ⟨u0, st0, h0, hu0, hst0, hh0, hq0, heq⟩ := sellStock_ok_inv hok
    have hs' := pair_eq_snd heq
    have hqe : preQuantity s uid ticker = h0.quantity := by
      unfold preQuantity
      rw [hh0]
    constructor
    · rw [hs', sellPersist_holdings, hqe]
    · rw [hqe]
      omega

/-- The malformed statement UserDAO.updateUser builds from an empty
field set (empty SET clause). -/
def emptyUserUpdateSQL : String := "UPDATE users SET  WHERE uid = $1"

/-- C8 counterexample: the user repository's update with an empty field
set does NOT fail with the empty-update error — the method has no such
check (it builds a malformed UPDATE with an empty SET clause
instead). -/
theorem updateUser_empty_no_typed_error :
    updateUserQuery [] ≠ Except.error LedgerError.emptyUpdate :=
  fun h => Except.noConfusion h

/-- C8 (amended): only the stock repository's update checks for an
empty field set and fails with the empty-update error before writing;
the user repository's update performs no such check and issues a
malformed UPDATE statement with an empty SET clause (which the store
rejects, so still no write happens). -/
theorem empty_update_check_asymmetry :
    updateStockQuery [] = Except.error LedgerError.emptyUpdate ∧
    updateUserQuery [] = Except.ok emptyUserUpdateSQL := ⟨rfl, rfl⟩

/-- C9: a successful wireToEntity debits only the source user by
exactly amount (loan and credit untouched), changes no other user row,
no holding and no stock row, lowers the total system cash by amount
when the store holds exactly one row for the source uid, and appends
exactly one wire record with balance_change = −amount and
is_destination_user = false. -/
theorem wireToEntity_frame_effect (s : DBState) (fromUid dest : String) (amount : Int)
    (u : User) (tx : WireTransaction) (s' : DBState)
    (hu : getUser s fromUid = some u)
    (hok : wireToEntity s fromUid dest amount = Except.ok (tx, s')) :
    getUser s' fromUid = some (applyUserPatch u ⟨some (u.balance - amount), none⟩) ∧
    (∀ other, other ≠ fromUid → getUser s' other = getUser s other) ∧
    s'.holdings = s.holdings ∧
    s'.stocks = s.stocks ∧
    (countUid s.users fromUid = 1 → totalCash s' = totalCash s - amount) ∧
    tx.balance_change = -amount ∧
    tx.is_destination_user = false ∧
    s'.transactions = TxRecord.wireTx tx :: s.transactions := by
  obtain ⟨fu, hf, hb, htx, hs'⟩ := wireToEntity_ok_inv hok
  rw [hu] at hf
  cases Option.some.inj hf
  refine ⟨?_, ?_, ?_, ?_, ?_, ?_, ?_, ?_⟩
  · rw [hs', getUser_createTransaction, getUser_updateUser_self, hu, Option.map_some']
  · intro other hne
    rw [hs', getUser_createTransaction, getUser_updateUser_ne _ fromUid other _ hne]
  · rw [hs']
    rfl
  · rw [hs']
    rfl
  · intro hcount
    rw [hs']
    show ((s.users.map fun v =>
        if v.uid = fromUid then applyUserPatch v ⟨some (u.balance - amount), none⟩
        else v).map (fun v => v.balance)).sum = totalCash s - amount
    rw [sum_balances_patch_single s.users fromUid ⟨some (u.balance - amount), none⟩ u hu
      hcount]
    show (s.users.map fun v => v.balance).sum - u.balance + (u.balance - amount) =
      totalCash s - amount
    unfold totalCash
    omega
  · rw [htx]
  · rw [htx]
  · rw [hs']
    rfl

/-- C10: a self-wire wireToUser(uid, uid, amount) on an existing user
with balance ≥ amount succeeds, and because the destination credit
(computed from the row read before any write) is written last, the
user's final balance is the starting balance PLUS amount, while the
returned record still reports balance_change = −amount. -/
theorem wireToUser_self_overwrite (s : DBState) (uid : String) (amount : Int) (u : User)
    (hu : getUser s uid = some u) (hge : ¬ u.balance < amount) :
    (wireToUser s uid uid amount).toOption.map
        (fun p => ((getUser p.2 uid).map (fun v => v.balance), p.1.balance_change)) =
      some (some (u.balance + amount), -amount) := by
  unfold wireToUser
  rw [hu]
  dsimp only
  rw [if_neg hge]
  show some ((getUser (createTransaction
      (updateUser (updateUser s uid ⟨some (u.balance - amount), none⟩) uid
        ⟨some (u.balance + amount), none⟩) _) uid).map (fun v => v.balance), -amount) =
    some (some (u.balance + amount), -amount)
  rw [getUser_createTransaction, getUser_updateUser_self, getUser_updateUser_self, hu]
  rfl

end Ayup

namespace Ayup

/-- User A after the cash-only purchase of one XYZ share. -/
def uAfterCash : User := { uid := uidA, balance := 0, credit_limit := 500, loan_balance := 0 }

/-- Record returned by the cash-only purchase of one XYZ share. -/
def txBuyCash : StockTransaction :=
  { type := TxType.buy, uid := uidA, ticker := tickXYZ, balance_change := -100,
    credit_change := 0, quantity := 1, price := 100, total_price := 100, timestamp := 1 }

/-- Store after the cash-only purchase of one XYZ share. -/
def sBuyCash : DBState :=
  { users := [uAfterCash], stocks := [stockXYZ],
    holdings := [{ uid := uidA, ticker := tickXYZ, quantity := 1, timestamp := 1 }],
    transactions := [TxRecord.stockTx txBuyCash], now := 1 }

/-- Concrete run: buying 1 XYZ at 100 from balance 100 without
credit. -/
theorem buyCash_run : buyStock s0 uidA tickXYZ 1 false = Except.ok (txBuyCash, sBuyCash) :=
  rfl

/-- User A after the credit-assisted purchase of two XYZ shares. -/
def uAfterCredit : User :=
  { uid := uidA, balance := 0, credit_limit := 500, loan_balance := 100 }

/-- Record returned by the credit-assisted purchase of two XYZ
shares. -/
def txBuyCredit : StockTransaction :=
  { type := TxType.buy, uid := uidA, ticker := tickXYZ, balance_change := -100,
    credit_change := 100, quantity := 2, price := 100, total_price := 200, timestamp := 1 }

/-- Store after the credit-assisted purchase of two XYZ shares. -/
def sBuyCredit : DBState :=
  { users := [uAfterCredit], stocks := [stockXYZ],
    holdings := [{ uid := uidA, ticker := tickXYZ, quantity := 2, timestamp := 1 }],
    transactions := [TxRecord.stockTx txBuyCredit], now := 1 }

/-- Concrete run: the spec's credit example, buying 2 XYZ at 100 from
balance 100 with credit limit 500. -/
theorem buyCredit_run : buyStock s0 uidA tickXYZ 2 true = Except.ok (txBuyCredit, sBuyCredit) :=
  rfl

/-- Record returned by wiring 40 from A to the external entity. -/
def txWireEnt : WireTransaction :=
  { type := TxType.wire, uid := uidA, balance_change := -40, destination := bankDest,
    is_destination_user := false, timestamp := 1 }

/-- Store after wiring 40 from A to the external entity. -/
def sWireEnt : DBState :=
  { users := [{ uid := uidA, balance := 60, credit_limit := 500, loan_balance := 0 }],
    stocks := [stockXYZ], holdings := [],
    transactions := [TxRecord.wireTx txWireEnt], now := 1 }

/-- Concrete run: wiring 40 from A (balance 100) to an external
destination. -/
theorem wireEnt_run : wireToEntity s0 uidA bankDest 40 = Except.ok (txWireEnt, sWireEnt) :=
  rfl

/-- User A after wiring 30 to B. -/
def uA70 : User := { uid := uidA, balance := 70, credit_limit := 500, loan_balance := 0 }

/-- User B after receiving 30 from A. -/
def uB50 : User := { uid := uidB, balance := 50, credit_limit := 0, loan_balance := 0 }

/-- Record returned by wiring 30 from A to B. -/
def txWireAB : WireTransaction :=
  { type := TxType.wire, uid := uidA, balance_change := -30, destination := uidB,
    is_destination_user := true, timestamp := 7 }

/-- Store after wiring 30 from A to B. -/
def sWireAB : DBState :=
  { users := [uA70, uB50], stocks := [stockXYZ], holdings := [],
    transactions := [TxRecord.wireTx txWireAB], now := 7 }

/-- Concrete run: wiring 30 from A (balance 100) to B (balance 20). -/
theorem wireAB_run : wireToUser s2u uidA uidB 30 = Except.ok (txWireAB, sWireAB) :=
  rfl

/-- C1 witness: the spec's credit example run through the theorem. -/
theorem buy_credit_shortfall_exact_witness :
    txBuyCredit.credit_change = stockXYZ.price * 2 - userA.balance ∧
    uAfterCredit.balance = userA.balance + txBuyCredit.credit_change - stockXYZ.price * 2 ∧
    uAfterCredit.balance = 0 ∧
    uAfterCredit.loan_balance = userA.loan_balance + txBuyCredit.credit_change ∧
    txBuyCredit.balance_change = -(stockXYZ.price * 2 - txBuyCredit.credit_change) ∧
    txBuyCredit.total_price = stockXYZ.price * 2 :=
  buy_credit_shortfall_exact s0 uidA tickXYZ 2 userA stockXYZ txBuyCredit sBuyCredit
    uAfterCredit rfl rfl (by decide) (by decide) buyCredit_run rfl

/-- C2 witness: the cash-only purchase run through the theorem. -/
theorem trade_balance_change_consistent_witness :
    uAfterCash.balance = userA.balance + txBuyCash.balance_change ∧
    uAfterCash.loan_balance = userA.loan_balance + txBuyCash.credit_change :=
  (trade_balance_change_consistent s0 uidA tickXYZ 1 false userA rfl).1
    txBuyCash sBuyCash uAfterCash buyCash_run rfl

/-- C3 witness: the credit purchase preserves loan ≤ limit (0 ≤ 500
before, 100 ≤ 500 after). -/
theorem loan_within_credit_limit_witness :
    uAfterCredit.loan_balance ≤ uAfterCredit.credit_limit :=
  (loan_within_credit_limit s0 uidA userA rfl (by decide)).1
    uidA tickXYZ 2 true txBuyCredit sBuyCredit uAfterCredit buyCredit_run rfl

/-- C4 witness: the A→B wire of 30 conserves the pair's cash. -/
theorem wireToUser_distinct_conserving_witness :
    uA70.balance = userA.balance - 30 ∧ uB50.balance = userB.balance + 30 ∧
    (uA70.balance - userA.balance) + (uB50.balance - userB.balance) = 0 :=
  wireToUser_distinct_conserving s2u uidA uidB 30 userA userB txWireAB sWireAB uA70 uB50
    (by decide) rfl rfl wireAB_run rfl rfl

/-- C5 witness: the spec's oversell example, selling 10 XYZ while
holding 5. -/
theorem sell_insufficient_quantity_fails_witness :
    sellStock s5 uidA tickXYZ 10 =
      Except.error
        (LedgerError.insufficientStockQuantity uidA (preQuantity s5 uidA tickXYZ) 10) :=
  sell_insufficient_quantity_fails s5 uidA tickXYZ 10 userA stockXYZ rfl rfl
    (Or.inr (by decide))

/-- C6 witness: buying 100 XYZ at 100 from balance 100 without credit
fails. -/
theorem buy_insufficient_balance_fails_witness :
    buyStock s0 uidA tickXYZ 100 false =
      Except.error (LedgerError.insufficientBalance uidA userA.balance (stockXYZ.price * 100)) :=
  buy_insufficient_balance_fails s0 uidA tickXYZ 100 userA stockXYZ rfl rfl (by decide)

/-- C7 witness: the cash-only purchase writes the snapshot 0 + 1 = 1,
which is nonnegative. -/
theorem trade_holding_quantity_witness :
    sBuyCash.holdings = { uid := uidA, ticker := tickXYZ,
                          quantity := preQuantity s0 uidA tickXYZ + 1,
                          timestamp := s0.now } :: s0.holdings ∧
    0 ≤ preQuantity s0 uidA tickXYZ + 1 := by
  have h := (trade_holding_quantity s0 uidA tickXYZ 1 false).1 txBuyCash sBuyCash buyCash_run
  exact ⟨h.1, h.2 (by decide) (by decide)⟩

/-- C9 witness: wiring 40 from A to the external entity debits only A
and lowers total cash from 100 to 60. -/
theorem wireToEntity_frame_effect_witness :
    getUser sWireEnt uidA = some (applyUserPatch userA ⟨some (userA.balance - 40), none⟩) ∧
    totalCash sWireEnt = totalCash s0 - 40 ∧
    txWireEnt.balance_change = -40 ∧
    txWireEnt.is_destination_user = false ∧
    sWireEnt.transactions = TxRecord.wireTx txWireEnt :: s0.transactions := by
  have h := wireToEntity_frame_effect s0 uidA bankDest 40 userA txWireEnt sWireEnt rfl
    wireEnt_run
  exact ⟨h.1, h.2.2.2.2.1 (by decide), h.2.2.2.2.2.1, h.2.2.2.2.2.2.1, h.2.2.2.2.2.2.2⟩

/-- C10 witness: the self-wire of 50 on balance 100 ends at balance
150 with balance_change −50 on the record. -/
theorem wireToUser_self_overwrite_witness :
    (wireToUser s0 uidA uidA 50).toOption.map
        (fun p => ((getUser p.2 uidA).map (fun v => v.balance), p.1.balance_change)) =
      some (some (userA.balance + 50), -50) :=
  wireToUser_self_overwrite s0 uidA 50 userA rfl (by decide)

end Ayup
